import Mathlib

/-!
# Verification of the ssmgr core (node-local supervisor + remote slave proxy)

Shallow embedding of the two core source files:

* `slave/shadowsocks/manager_ng.go` — the node-local process supervisor
  (`manager`): server table, process launch/kill, liveness monitor loop and
  the UDP telemetry handler.
* `manager/slave.go` — the controller-side remote slave proxy (`slave`):
  RPC-backed Allocate/Free/ListServices/GetStats/SetStats plus the locally
  cached `slaveMeta`.

Modelling conventions:

* Go maps are embedded as association lists; where the nil/empty map
  distinction is observable (assignment to an entry in a nil map panics),
  the map is wrapped in `Option` (`none` = nil map).
* A Go runtime panic is embedded as `Except.error ()`; operations that can
  panic return `Except Unit _`.
* OS processes are embedded as a supply of pids plus the set of pids
  currently alive; the RPC channel and remote side are embedded as an
  explicit outcome argument (the remote reply, or a channel error).
* Heap pointers to `Server` structs are embedded as addresses into an
  explicit heap (`heap : List (Nat × Server)`), so that aliasing between
  the supervisor's table and the clones it hands out is faithfully
  represented.
-/

set_option autoImplicit false

namespace Ssmgr

/-! ## `manager/slave.go` : data model -/

/-- `ShadowsocksService` from `manager/slave.go`: `(UserId, Port, Password)`,
the unit of allocation exchanged over RPC.  Ports are `int32` in the source;
values are small so they are embedded as `Int`. -/
structure ShadowsocksService where
  userId : String
  port : Int
  password : String
deriving DecidableEq, Repr

/-- A Go `map[κ]ν` value: `none` is the nil map, `some l` a (possibly empty)
map represented as an association list (first binding wins on lookup). -/
abbrev GoMap (κ ν : Type) := Option (List (κ × ν))

/-- Reading `m[k]` from a Go map: reading from a nil map yields the absent
result, never a fault. -/
def goRead {κ ν : Type} [BEq κ] (m : GoMap κ ν) (k : κ) : Option ν :=
  match m with
  | none => none
  | some l => l.lookup k

/-- Writing `m[k] = v` to a Go map: assignment to an entry in a nil map is a
runtime panic (`Except.error ()`). -/
def goWrite {κ ν : Type} [BEq κ] (m : GoMap κ ν) (k : κ) (v : ν) :
    Except Unit (GoMap κ ν) :=
  match m with
  | none => Except.error ()
  | some l => Except.ok (some ((k, v) :: l.filter (fun kv => !(kv.1 == k))))

/-- `delete(m, k)` on a Go map: deleting from a nil map is a no-op. -/
def goDelete {κ ν : Type} [BEq κ] (m : GoMap κ ν) (k : κ) : GoMap κ ν :=
  match m with
  | none => none
  | some l => some (l.filter (fun kv => !(kv.1 == k)))

/-- `slaveMeta` from `manager/slave.go`: the locally cached belief about the
remote node — `openedPorts : map[int32]*ShadowsocksService` and
`stats : map[int32]int64`. -/
structure slaveMeta where
  openedPorts : GoMap Int ShadowsocksService
  stats : GoMap Int Int
deriving DecidableEq, Repr

/-- `slaveMeta.addPorts`: for each service, `m.openedPorts[srv.Port] = srv`
then `m.stats[srv.Port] = 0`.  Faults when a write hits a nil map. -/
def slaveMeta.addPorts (m : slaveMeta) (srvs : List ShadowsocksService) :
    Except Unit slaveMeta :=
  srvs.foldlM
    (fun m srv => do
      let op ← goWrite m.openedPorts srv.port srv
      let st ← goWrite m.stats srv.port 0
      pure { openedPorts := op, stats := st })
    m

/-- `slaveMeta.removePorts`: `delete` on both maps for each service; `delete`
never faults, even on a nil map. -/
def slaveMeta.removePorts (m : slaveMeta) (srvs : List ShadowsocksService) :
    slaveMeta :=
  srvs.foldl
    (fun m srv =>
      { openedPorts := goDelete m.openedPorts srv.port
        stats := goDelete m.stats srv.port })
    m

/-- `slaveMeta.setStats`: `m.stats[port] = traffic` for every pair of the
argument map (association-list order stands in for Go's arbitrary map
iteration order; the writes commute).  Faults when `stats` is nil and the
argument is non-empty. -/
def slaveMeta.setStats (m : slaveMeta) (stats : List (Int × Int)) :
    Except Unit slaveMeta :=
  stats.foldlM
    (fun m pt => do
      let st ← goWrite m.stats pt.1 pt.2
      pure { m with stats := st })
    m

/-- `slaveMeta.ListServices`: the values of `openedPorts`. -/
def slaveMeta.ListServices (m : slaveMeta) : List ShadowsocksService :=
  match m.openedPorts with
  | none => []
  | some l => l.map (fun kv => kv.2)

/-- The state of one `slave` object: the grpc connection and stub are nil
until `Dial` succeeds (the connection itself carries no further structure
in this embedding). -/
structure SlaveState where
  remoteURL : String
  conn : Option Unit
  stubSet : Bool
  token : String
  meta : slaveMeta
deriving DecidableEq, Repr

/-- `NewSlave(url, token)`: note that `meta` initializes `openedPorts` with
`make(...)` but leaves `stats` as the nil map. -/
def NewSlave (url token : String) : SlaveState :=
  { remoteURL := url
    conn := none
    stubSet := false
    token := token
    meta := { openedPorts := some [], stats := none } }

/-- `slave.Dial`: `grpc.Dial` either fails (returning the error, state
unchanged) or installs the connection and the stub.  The outcome of the
blocking dial is the explicit argument `dialOk`. -/
def slave.Dial (s : SlaveState) (dialOk : Bool) : Option Unit × SlaveState :=
  if dialOk then
    (none, { s with conn := some (), stubSet := true })
  else
    (some (), s)

/-- `slave.Close`: saves `conn`, nils out `conn` and `stub`, then calls
`conn.Close()`.  When the slave was never dialed, `conn` is nil and the
method call dereferences a nil `*grpc.ClientConn` (a panic, embedded as
`Except.error ()`); on a live connection `Close` returns nil in this
embedding. -/
def slave.Close (s : SlaveState) : Except Unit SlaveState :=
  match s.conn with
  | none => Except.error ()
  | some _ => Except.ok { s with conn := none, stubSet := false }

/-- Identity key used by the reconciliation: `userId + port`. -/
def sameKey (x y : ShadowsocksService) : Bool :=
  x.userId == y.userId && x.port == y.port

/-- Modelled from the spec: `compareLists` (reconciliation helper of the
`manager` package, not present under `src/`) — "build a set of identity keys
from each side; anything in requested but not returned is a missing entry,
anything in returned but not requested is an unexpected entry"; the reported
difference is `(R∖A) ∪ (A∖R)` by identity key `(userId, port)`. -/
def compareLists (req ret : List ShadowsocksService) : List ShadowsocksService :=
  req.filter (fun r => !(ret.any (fun a => sameKey r a)))
    ++ ret.filter (fun a => !(req.any (fun r => sameKey a r)))

/-- Modelled from the spec: `constructProtocolServiceList` (not present
under `src/`) converts local services to their protocol twins field by
field; the two types coincide in this embedding, so it is the identity. -/
def constructProtocolServiceList (l : List ShadowsocksService) :
    List ShadowsocksService := l

/-- Modelled from the spec: `constructServiceList` (not present under
`src/`), inverse conversion of `constructProtocolServiceList`; the identity
in this embedding. -/
def constructServiceList (l : List ShadowsocksService) :
    List ShadowsocksService := l

/-- Errors a `slave` call can return: a transport error from the RPC
channel, or the single aggregated reconciliation error built by
`constructErrorFromDifferenceServiceList` carrying the difference list. -/
inductive SlaveErr where
  | channel
  | diffErr (diff : List ShadowsocksService)
deriving DecidableEq, Repr

/-- The outcome of a remote RPC round trip, passed in explicitly: the
returned service list, or a channel error. -/
abbrev RpcListOutcome := Except Unit (List ShadowsocksService)

/-- `slave.Allocate`: sends the request; on channel error returns
`(nil, err)` with no local change; otherwise computes the difference of the
requested and returned lists, merges the returned services into the meta
(`addPorts` — this can fault on the nil stats map), and returns the
returned list together with the aggregated error when the difference is
non-empty. -/
def slave.Allocate (s : SlaveState) (srvs : List ShadowsocksService)
    (rpc : RpcListOutcome) :
    Except Unit (SlaveState × Option (List ShadowsocksService) × Option SlaveErr) :=
  match rpc with
  | Except.error _ => Except.ok (s, none, some SlaveErr.channel)
  | Except.ok respList =>
    let serviceList := constructProtocolServiceList srvs
    let diff := compareLists serviceList respList
    let allocatedList := constructServiceList respList
    match s.meta.addPorts allocatedList with
    | Except.error _ => Except.error ()
    | Except.ok meta1 =>
      let s1 := { s with meta := meta1 }
      if diff.length ≠ 0 then
        Except.ok (s1, some allocatedList, some (SlaveErr.diffErr diff))
      else
        Except.ok (s1, some allocatedList, none)

/-- `slave.Free`: mirror of `Allocate`; `removePorts` never faults (map
deletes are total), so `Free` is fault-free. -/
def slave.Free (s : SlaveState) (srvs : List ShadowsocksService)
    (rpc : RpcListOutcome) :
    SlaveState × Option (List ShadowsocksService) × Option SlaveErr :=
  match rpc with
  | Except.error _ => (s, none, some SlaveErr.channel)
  | Except.ok respList =>
    let serviceList := constructProtocolServiceList srvs
    let diff := compareLists serviceList respList
    let freedList := constructServiceList respList
    let s1 := { s with meta := s.meta.removePorts freedList }
    if diff.length ≠ 0 then
      (s1, some freedList, some (SlaveErr.diffErr diff))
    else
      (s1, some freedList, none)

/-- `slave.GetStats`: on success overwrites the cached stats with the
response (`setStats` — faults on the nil stats map when the response is
non-empty) and returns the raw counters. -/
def slave.GetStats (s : SlaveState) (rpc : Except Unit (List (Int × Int))) :
    Except Unit (SlaveState × Option (List (Int × Int)) × Bool) :=
  match rpc with
  | Except.error _ => Except.ok (s, none, true)
  | Except.ok traffics =>
    match s.meta.setStats traffics with
    | Except.error _ => Except.error ()
    | Except.ok meta1 => Except.ok ({ s with meta := meta1 }, some traffics, false)

/-- `slave.SetStats`: pushes the counters to the remote node and, on
success, mirrors the same values into the local meta (`setStats` — faults
on the nil stats map when the argument is non-empty). -/
def slave.SetStats (s : SlaveState) (traffics : List (Int × Int))
    (rpcOk : Bool) : Except Unit (SlaveState × Bool) :=
  if rpcOk then
    match s.meta.setStats traffics with
    | Except.error _ => Except.error ()
    | Except.ok meta1 => Except.ok ({ s with meta := meta1 }, false)
  else
    Except.ok (s, true)

/-! ## `slave/shadowsocks/manager_ng.go` : data model -/

/-- `serverOptions` from `manager_ng.go` (command-line feature flags of the
`ss-server` child; `Interface` is embedded as `netInterface`). -/
structure serverOptions where
  mptcp : Bool := false
  tcpFastOpen : Bool := false
  auth : Bool := false
  nameServer : String := ""
  pidFile : String := ""
  managerAddress : String := ""
  netInterface : String := ""
  fireWall : Bool := false
  verbose : Bool := false
deriving DecidableEq, Repr

/-- The fixed whitelist `methods` of cipher names. -/
def methods : List String :=
  ["table", "rc4", "rc4-md5", "aes-128-cfb", "aes-192-cfb", "aes-256-cfb",
   "aes-128-ctr", "aes-192-ctr", "aes-256-ctr", "bf-cfb", "camellia-128-cfb",
   "camellia-192-cfb", "camellia-256-cfb", "cast5-cfb", "des-cfb", "idea-cfb",
   "rc2-cfb", "seed-cfb", "salsa20", "chacha20", "chacha20-ietf"]

/-- `ValidateEncryptMethod`: membership in the whitelist. -/
def ValidateEncryptMethod (m : String) : Bool :=
  methods.contains m

/-- `Stat`: cumulative transferred bytes (int64) for one port. -/
structure Stat where
  traffic : Int
deriving DecidableEq, Repr

/-- `Server` from `manager_ng.go`: configuration fields, the
atomically-swapped stat snapshot (`stat : atomic.Value`, `none` until the
first `Store`), the options, and the runtime block.  `runtime.cmd` together
with its started process is embedded as `rtCmd : Option Nat` — the pid of
the successfully started child, `none` when there is no cmd or the cmd was
never started (`cmd.Process == nil`).  `runtime.logw` is embedded as the
flag `rtLogw` (an open log handle or nil). -/
structure Server where
  host : String
  port : Int
  password : String
  method : String
  timeout : Int
  stat : Option Stat := none
  options : serverOptions := {}
  rtPath : String := ""
  rtCmd : Option Nat := none
  rtLogw : Bool := false
  rtConfig : String := ""
deriving DecidableEq, Repr

/-- `Server.Valid`: host non-empty, `0 < port < 65536`, password of at
least 8 bytes, whitelisted method, positive timeout (Go `len` is byte
length, hence `utf8ByteSize`). -/
def Server.Valid (s : Server) : Bool :=
  s.host.utf8ByteSize != 0 && s.port > 0 && s.port < 65536 &&
    s.password.utf8ByteSize ≥ 8 && ValidateEncryptMethod s.method && s.timeout > 0

/-- `Server.GetStat`: the stored snapshot, or the zero `Stat` when nothing
was ever stored. -/
def Server.GetStat (s : Server) : Stat :=
  match s.stat with
  | none => { traffic := 0 }
  | some st => st

/-- `Server.clone`: a struct copy (`copy := *s`) whose stat box holds a
fresh copy of the current snapshot and whose log handle is nil'd out.  The
`runtime.cmd` pointer is copied as-is, exactly as in the source. -/
def Server.clone (s : Server) : Server :=
  { s with stat := some s.GetStat, rtLogw := false }

/-- Errors of `Manager` (`ErrServerNotFound`, `ErrInvalidServer`,
`ErrServerExists`) plus the launch error propagated out of `exec`. -/
inductive MErr where
  | serverNotFound
  | invalidServer
  | serverExists
  | execFailed
deriving DecidableEq, Repr

/-- State of the `manager` struct plus the ambient OS world it owns: the
heap of `*Server` objects, the table `servers : map[int32]*Server` (port ↦
address), the artifact base path and udp port, the pid supply with the set
of live pids, and the set of existing per-port directories. -/
structure MState where
  heap : List (Nat × Server)
  nextAddr : Nat
  servers : List (Int × Nat)
  mpath : String
  udpPort : Int
  nextPid : Nat
  alivePids : List Nat
  fsDirs : List String
deriving DecidableEq, Repr

/-- Dereference a `*Server` address. -/
def heapGet (h : List (Nat × Server)) (a : Nat) : Option Server :=
  h.lookup a

/-- Overwrite the `Server` struct stored at address `a`. -/
def heapSetState (st : MState) (a : Nat) (v : Server) : MState :=
  { st with heap := (a, v) :: st.heap }

/-- Allocate a fresh `*Server` holding `v` (models `&Server{...}` /
`copy := *s; return &copy`). -/
def alloc (st : MState) (v : Server) : Nat × MState :=
  (st.nextAddr,
   { st with heap := (st.nextAddr, v) :: st.heap, nextAddr := st.nextAddr + 1 })

/-- `Server.Alive` relative to the OS world: a started process whose pid is
currently alive (`s.Process() != nil && process.Alive(pid)`). -/
def Server.Alive (s : Server) (st : MState) : Bool :=
  match s.rtCmd with
  | none => false
  | some pid => st.alivePids.contains pid

/-- `NewManager(udpPort)`: empty table, base path under the home directory
(the home directory is a parameter of this embedding via `home`). -/
def NewManager (home : String) (udpPort : Int) : MState :=
  { heap := []
    nextAddr := 0
    servers := []
    mpath := home ++ "/.shadowsocks_manager"
    udpPort := udpPort
    nextPid := 0
    alivePids := []
    fsDirs := [] }

/-- Insert a directory into the file-system model (`os.MkdirAll`:
idempotent, modelled as always succeeding). -/
def insertDir (dirs : List String) (d : String) : List String :=
  if dirs.contains d then dirs else d :: dirs

/-- `manager.prepareExec`: derives the per-port path prefix, points the
options at the pid file and the local manager address, turns on verbose,
creates the working directory, writes the config file (the directory entry
stands for all on-disk artifacts beneath it), and records path and config
file in the runtime block. -/
def prepareExec (st : MState) (s : Server) : MState × Server :=
  let pathPrefix := st.mpath ++ "/" ++ toString s.port
  let s1 := { s with options :=
    { s.options with
        pidFile := pathPrefix ++ "/ss_server.pid"
        managerAddress := "127.0.0.1:" ++ toString st.udpPort
        verbose := true } }
  let st1 := { st with fsDirs := insertDir st.fsDirs pathPrefix }
  (st1, { s1 with rtPath := pathPrefix, rtConfig := pathPrefix ++ "/ss_server.json" })

/-- `manager.exec` on the `*Server` at address `a`: prepare the artifacts,
open the log file, build the command, start the child.  All fallible steps
are collapsed into the outcome flag `startOk` of the last one
(`cmd.Start()`); on failure the runtime block has a cmd with no started
process (`rtCmd := none`).  On success a fresh pid is started and recorded.
The pid-file write is best-effort and leaves no trace beyond the directory
entry. -/
def Manager.exec (st : MState) (a : Nat) (startOk : Bool) : Bool × MState :=
  match heapGet st.heap a with
  | none => (false, st)
  | some s =>
    let (st1, s1) := prepareExec st s
    let s2 := { s1 with rtLogw := true, rtCmd := none }
    if startOk then
      let pid := st1.nextPid
      let st2 := heapSetState st1 a { s2 with rtCmd := some pid }
      (true, { st2 with nextPid := pid + 1, alivePids := pid :: st2.alivePids })
    else
      (false, heapSetState st1 a s2)

/-- `manager.deleteResidue`: `os.RemoveAll` of the server's working
directory (failure is logged; modelled as succeeding). -/
def deleteResidue (st : MState) (s : Server) : MState :=
  { st with fsDirs := st.fsDirs.filter (fun d => !(d == s.rtPath)) }

/-- Remove a port's binding from the table (`delete(mgr.servers, port)`). -/
def eraseServerKey (l : List (Int × Nat)) (p : Int) : List (Int × Nat) :=
  l.filter (fun e => !(e.1 == p))

/-- `manager.remove(port)`: take the write lock and delete the table
entry. -/
def Manager.removeEntry (st : MState) (p : Int) : MState :=
  { st with servers := eraseServerKey st.servers p }

/-- `manager.Add(s)`: under both locks — reject when the port is already
present, reject invalid configurations, otherwise allocate the caller's
`*Server`, exec it, and insert the address into the table only when the
launch succeeded.  On launch failure the error is returned with the partial
on-disk state left behind by `exec`. -/
def Manager.Add (st : MState) (s : Server) (startOk : Bool) :
    Except MErr Unit × MState :=
  if (st.servers.lookup s.port).isSome then
    (Except.error MErr.serverExists, st)
  else if !s.Valid then
    (Except.error MErr.invalidServer, st)
  else
    let (a, st1) := alloc st s
    match Manager.exec st1 a startOk with
    | (false, st2) => (Except.error MErr.execFailed, st2)
    | (true, st2) => (Except.ok (), { st2 with servers := (s.port, a) :: st2.servers })

/-- The events a `Remove` call performs, in order. -/
inductive Event where
  | tableDelete (port : Int)
  | killProc (pid : Nat)
  | waitProc (pid : Nat)
  | closeLog
  | removeDir (dir : String)
deriving DecidableEq, Repr

/-- `manager.Remove(port)`: under both locks — absent port fails with
`ErrServerNotFound` and mutates nothing; otherwise the table entry is
deleted first and only then `mgr.kill` runs: `Process().Kill()` (a failed
kill is only logged), `cmd.Wait()` to reclaim the child, `logw.Close()`,
and `deleteResidue`.  `Process()` on an entry whose cmd was never started
would dereference nil and panic (`Except.error ()`); such entries are
unreachable because `Add` inserts only successfully started servers.  The
event list records the order of the side effects. -/
def Manager.Remove (st : MState) (p : Int) :
    Except Unit (Except MErr Unit × MState × List Event) :=
  match st.servers.lookup p with
  | none => Except.ok (Except.error MErr.serverNotFound, st, [])
  | some a =>
    match heapGet st.heap a with
    | none => Except.error ()
    | some s =>
      match s.rtCmd with
      | none => Except.error ()
      | some pid =>
        let st1 := { st with servers := eraseServerKey st.servers p }
        let st2 := { st1 with alivePids := st1.alivePids.filter (fun q => !(q == pid)) }
        let st3 := deleteResidue st2 s
        Except.ok (Except.ok (), st3,
          [Event.tableDelete p, Event.killProc pid, Event.waitProc pid,
           Event.closeLog, Event.removeDir s.rtPath])

/-- Helper of `ListServers`: walk the table entries, allocating a fresh
clone of each live entry (map iteration order is the list order). -/
def listClones : List (Int × Nat) → MState → List (Int × Nat) × MState
  | [], st => ([], st)
  | (p, a) :: rest, st =>
    match heapGet st.heap a with
    | none => listClones rest st
    | some s =>
      let (na, st1) := alloc st s.clone
      let (res, st2) := listClones rest st1
      ((p, na) :: res, st2)

/-- `manager.ListServers`: under the read lock, a map from each port to a
freshly allocated clone of its entry. -/
def Manager.ListServers (st : MState) : List (Int × Nat) × MState :=
  listClones st.servers st

/-- `manager.GetServer(port)`: `ErrServerNotFound` when absent, otherwise a
freshly allocated clone of the entry. -/
def Manager.GetServer (st : MState) (p : Int) :
    Except MErr (Nat × MState) :=
  match st.servers.lookup p with
  | none => Except.error MErr.serverNotFound
  | some a =>
    match heapGet st.heap a with
    | none => Except.error MErr.serverNotFound
    | some s =>
      let (na, st1) := alloc st s.clone
      Except.ok (na, st1)

/-- The value a snapshot of port `p` exposes: the clone of the table's
entry (both `ListServers` and `GetServer` return exactly these values). -/
def getServerValue (st : MState) (p : Int) : Option Server :=
  match st.servers.lookup p with
  | none => none
  | some a =>
    match heapGet st.heap a with
    | none => none
    | some s => some s.clone

/-- The full observable content of the table: every port together with the
snapshot value an accessor would produce for it. -/
def tableView (st : MState) : List (Int × Option Server) :=
  st.servers.map (fun pa => (pa.1, (heapGet st.heap pa.2).map Server.clone))

/-- One pass of `manager.ServerMonitor`'s body (the work done each time the
5-second timer fires): iterate over the clones returned by `ListServers`;
for each clone whose process is not alive, run `mgr.exec` **on the clone's
address**; when the relaunch fails, delete the residual artifacts and
remove the port's entry from the table. -/
def Manager.monitorIter (st : MState) (startOk : Bool) : MState :=
  let (clones, st0) := Manager.ListServers st
  clones.foldl
    (fun acc pc =>
      match heapGet acc.heap pc.2 with
      | none => acc
      | some s =>
        if !(s.Alive acc) then
          match Manager.exec acc pc.2 startOk with
          | (true, st1) => st1
          | (false, st1) =>
            match heapGet st1.heap pc.2 with
            | none => st1
            | some s1 =>
              let st2 := deleteResidue st1 s1
              Manager.removeEntry st2 s1.port
        else acc)
    st0

/-! ## Telemetry packet decoding (`StatRecvHandler`)

`json.Unmarshal` into `map[string]int64` is embedded as a character-level
parser for flat JSON objects with plain (escape-free) string keys and
integer values — exactly the shapes a stat packet can carry.  Inputs Go
would accept through escapes, exponents or duplicate keys are outside the
modelled fragment (packets' keys are decimal port numbers).  Go's arbitrary
map iteration order is embedded as the textual order of the object's
bindings. -/

/-- Whitespace trimmed by `bytes.TrimSpace` (ASCII fragment of
`unicode.IsSpace`). -/
def isGoSpace (c : Char) : Bool :=
  c == ' ' || c == '\t' || c == '\n' || c == '\x0b' || c == '\x0c' || c == '\r'

/-- `bytes.TrimSpace`: strip leading and trailing whitespace. -/
def trimSpace (l : List Char) : List Char :=
  ((l.dropWhile isGoSpace).reverse.dropWhile isGoSpace).reverse

/-- JSON insignificant whitespace. -/
def isJsonWs (c : Char) : Bool :=
  c == ' ' || c == '\t' || c == '\n' || c == '\r'

/-- Skip insignificant JSON whitespace. -/
def skipWs (l : List Char) : List Char :=
  l.dropWhile isJsonWs

/-- Parse a JSON string without escape sequences: `"` body `"`. -/
def parseJString (l : List Char) : Option (String × List Char) :=
  match l with
  | '"' :: s =>
    let body := s.takeWhile (fun c => !(c == '"') && !(c == '\\'))
    (match s.drop body.length with
     | '"' :: rest => some (String.mk body, rest)
     | _ => none)
  | _ => none

/-- Numeric value of a non-empty digit run. -/
def digitsToNat (l : List Char) : Nat :=
  l.foldl (fun acc c => acc * 10 + (c.toNat - '0'.toNat)) 0

/-- Parse a JSON integer: optional minus sign, then a digit run (int64
range and the leading-zero restriction are outside the modelled
fragment). -/
def parseJInt (l : List Char) : Option (Int × List Char) :=
  match l with
  | '-' :: s =>
    let ds := s.takeWhile Char.isDigit
    if ds.isEmpty then none
    else some (-(digitsToNat ds : Int), s.drop ds.length)
  | s =>
    let ds := s.takeWhile Char.isDigit
    if ds.isEmpty then none
    else some ((digitsToNat ds : Int), s.drop ds.length)

/-- Parse the bindings of a JSON object after the opening brace, ending at
the closing brace; `fuel` bounds the recursion by the input length. -/
def parsePairs : Nat → List Char → Option (List (String × Int) × List Char)
  | 0, _ => none
  | Nat.succ fuel, l =>
    match parseJString (skipWs l) with
    | none => none
    | some (k, s1) =>
      match skipWs s1 with
      | ':' :: s2 =>
        (match parseJInt (skipWs s2) with
         | none => none
         | some (v, s3) =>
           match skipWs s3 with
           | '\x7d' :: s4 => some ([(k, v)], s4)
           | ',' :: s4 =>
             (match parsePairs fuel s4 with
              | some (kvs, s5) => some ((k, v) :: kvs, s5)
              | none => none)
           | _ => none)
      | _ => none

/-- `json.Unmarshal(body, &stat)` for `stat : map[string]int64`: a single
flat object, nothing but whitespace after it. -/
def parseStatJson (l : List Char) : Option (List (String × Int)) :=
  match skipWs l with
  | '\x7b' :: s1 =>
    (match skipWs s1 with
     | '\x7d' :: s2 => if (skipWs s2).isEmpty then some [] else none
     | _ =>
       match parsePairs (l.length + 1) s1 with
       | some (kvs, s2) => if (skipWs s2).isEmpty then some kvs else none
       | none => none)
  | _ => none

/-- `strconv.Atoi` with the error discarded, as the handler does
(`port, _ = strconv.Atoi(portS)`): the numeric value on a well-formed
optionally-signed decimal, and `0` — Go's zero result — otherwise. -/
def atoi (s : String) : Int :=
  match s.toList with
  | '-' :: rest =>
    if !rest.isEmpty && rest.all Char.isDigit then -(digitsToNat rest : Int) else 0
  | '+' :: rest =>
    if !rest.isEmpty && rest.all Char.isDigit then (digitsToNat rest : Int) else 0
  | l =>
    if !l.isEmpty && l.all Char.isDigit then (digitsToNat l : Int) else 0

/-- The Go conversion `int32(port)`: two's-complement wrap-around. -/
def toInt32 (n : Int) : Int :=
  (n + 2 ^ 31) % 2 ^ 32 - 2 ^ 31

/-- The first binding visited by `for portS, trafficS := range stat`
(followed by `break`), starting from the initial `port, traffic := -1, -1`:
the port is `Atoi` of the key with the error ignored. -/
def firstStat : List (String × Int) → Int × Int
  | [] => (-1, -1)
  | (k, t) :: _ => (atoi k, t)

/-- `manager.StatRecvHandler(data)`: read the 4-byte command tag
(`data[:4]` panics on shorter input), drop the packet unless the tag is
`stat`, strip one delimiter byte (`data[5:]` panics when the input is
exactly 4 bytes), trim the body, JSON-parse it (drop on error), take the
first binding (drop when the resulting port or traffic is negative), look
the port up (drop when unknown), and atomically store the new `Stat`
snapshot on the entry. -/
def statRecvHandler (st : MState) (data : List Char) : Except Unit MState :=
  if data.length < 4 then Except.error ()
  else if String.mk (data.take 4) ≠ "stat" then Except.ok st
  else if data.length < 5 then Except.error ()
  else
    let body := trimSpace (data.drop 5)
    match parseStatJson body with
    | none => Except.ok st
    | some kvs =>
      let pt := firstStat kvs
      if pt.1 < 0 ∨ pt.2 < 0 then Except.ok st
      else
        match st.servers.lookup (toInt32 pt.1) with
        | none => Except.ok st
        | some a =>
          match heapGet st.heap a with
          | none => Except.ok st
          | some s =>
            Except.ok (heapSetState st a { s with stat := some { traffic := pt.2 } })

/-- Bool-level well-formedness of a manager state: every address recorded
in the table lies below the allocation frontier (true of every state the
API can produce, since the table only ever receives `alloc`-fresh
addresses). -/
def wfAddrs (st : MState) : Bool :=
  st.servers.all (fun pa => pa.2 < st.nextAddr)

/-! ## Concrete states and packets used by the theorems -/

/-- A remote-node url used in concrete slave states. -/
def urlA : String := "127.0.0.1:8001"

/-- A credential token used in concrete slave states. -/
def tokenA : String := "secret-token"

/-- A concrete service used in concrete slave scenarios. -/
def svcA : ShadowsocksService :=
  { userId := "user-a", port := 8388, password := "password-a" }

/-- A second concrete service. -/
def svcB : ShadowsocksService :=
  { userId := "user-b", port := 8389, password := "password-b" }

/-- The artifact base path of the concrete manager states
(`$HOME/.shadowsocks_manager` with home `/root`). -/
def mgrPath : String := "/root/.shadowsocks_manager"

/-- The home directory of the concrete manager states. -/
def homeA : String := "/root"

/-- A valid server configuration on port 8388. -/
def validServer : Server :=
  { host := "127.0.0.1", port := 8388, password := "password12"
    method := "aes-256-cfb", timeout := 600 }

/-- An invalid configuration on the same port 8388 (empty host, short
password, unknown method, zero timeout). -/
def invalidServer : Server :=
  { host := "", port := 8388, password := "short"
    method := "none", timeout := 0 }

/-- A launched server entry on port 8388 whose recorded child is pid 100. -/
def monServer : Server :=
  { host := "127.0.0.1", port := 8388, password := "password12"
    method := "aes-256-cfb", timeout := 600
    options := { pidFile := mgrPath ++ "/8388/ss_server.pid"
                 managerAddress := "127.0.0.1:6001", verbose := true }
    rtPath := mgrPath ++ "/8388", rtCmd := some 100, rtLogw := true
    rtConfig := mgrPath ++ "/8388/ss_server.json" }

/-- A launched server entry on port 8389 whose recorded child is pid 90. -/
def monServerB : Server :=
  { host := "127.0.0.1", port := 8389, password := "password34"
    method := "chacha20", timeout := 600
    options := { pidFile := mgrPath ++ "/8389/ss_server.pid"
                 managerAddress := "127.0.0.1:6001", verbose := true }
    rtPath := mgrPath ++ "/8389", rtCmd := some 90, rtLogw := true
    rtConfig := mgrPath ++ "/8389/ss_server.json" }

/-- A manager tracking port 8388 whose recorded process (pid 100) has
exogenously died: pid 100 is not in the set of live pids. -/
def monState : MState :=
  { heap := [(0, monServer)]
    nextAddr := 1
    servers := [(8388, 0)]
    mpath := mgrPath
    udpPort := 6001
    nextPid := 101
    alivePids := []
    fsDirs := [mgrPath ++ "/8388"] }

/-- A manager tracking ports 8388 and 8389, both children alive. -/
def stTwo : MState :=
  { heap := [(0, monServer), (1, monServerB)]
    nextAddr := 2
    servers := [(8388, 0), (8389, 1)]
    mpath := mgrPath
    udpPort := 6001
    nextPid := 101
    alivePids := [100, 90]
    fsDirs := [mgrPath ++ "/8388", mgrPath ++ "/8389"] }

/-- The state reached from an empty manager by a successful
`Add(validServer)`. -/
def addState : MState :=
  (Manager.Add (NewManager homeA 6001) validServer true).2

/-- The state `GetServer(8388)` on `monState` threads back: the clone of
the entry allocated at the fresh address 1. -/
def monGetState : MState :=
  { monState with heap := (1, monServer.clone) :: monState.heap, nextAddr := 2 }

/-- An arbitrary overwrite of the snapshot's configuration and stat fields,
used to mutate a returned clone. -/
def mutatedClone : Server :=
  { monServer.clone with
    host := "0.0.0.0"
    password := "overwritten"
    stat := some { traffic := 777 } }

/-- The well-formed telemetry packet `stat` + delimiter + a single-key
JSON object mapping port 8388 to 1024 bytes. -/
def statPacket8388 : List Char :=
  "stat \x7b\"8388\":1024\x7d".toList

/-- A well-formed two-key telemetry packet naming ports 8388 and 8389. -/
def statPacketMulti : List Char :=
  "stat \x7b\"8388\":1024,\"8389\":2048\x7d".toList

/-- A packet whose command tag is not `stat`. -/
def bogusTagPacket : List Char :=
  "boguspacket".toList

/-- A `stat` packet whose body is not valid JSON. -/
def junkBodyPacket : List Char :=
  "stat junk".toList

/-- A `stat` packet carrying a negative traffic value. -/
def negValuePacket : List Char :=
  "stat \x7b\"8388\":-7\x7d".toList

/-- A three-byte datagram (shorter than the 4-byte command tag). -/
def shortPacket : List Char :=
  "sta".toList

/-! ## Theorems -/

/-- **C10.** A slave freshly created by `NewSlave` has a nil `stats` map
(only `openedPorts` is initialized), so the first operation that writes a
per-port traffic counter — `Allocate` with a non-empty returned list,
`GetStats` with a non-empty response, `SetStats` with a non-empty
argument — assigns into a nil map and faults instead of recording the
value. -/
theorem c10_nil_stats_map_faults (url token : String) (svc : ShadowsocksService)
    (rest : List ShadowsocksService) (p t : Int) (ts : List (Int × Int)) :
    (NewSlave url token).meta.stats = none
    ∧ (NewSlave url token).meta.openedPorts = some []
    ∧ slave.Allocate (NewSlave url token) [svc] (Except.ok (svc :: rest))
        = Except.error ()
    ∧ slave.GetStats (NewSlave url token) (Except.ok ((p, t) :: ts))
        = Except.error ()
    ∧ slave.SetStats (NewSlave url token) ((p, t) :: ts) true
        = Except.error () :=
  ⟨rfl, rfl, rfl, rfl, rfl⟩

/-- **C2** (code bug shown at the failing input).  On a fresh slave, a
fully successful `Allocate` — the remote returns exactly the requested
list — faults while merging the returned service into `NodeMeta`
(`addPorts` assigns the zeroed traffic counter into the nil `stats` map)
instead of completing the merge. -/
theorem c2_allocate_merge_faults_on_fresh_slave :
    slave.Allocate (NewSlave urlA tokenA) [svcA] (Except.ok [svcA])
      = Except.error () :=
  rfl

/-- **C3** (code bug shown at the failing input).  The modelled
reconciliation of two identical lists is the empty difference, yet the
`Allocate` call that receives exactly what it requested faults (nil stats
map) rather than reporting no error; the reconciliation contract is
unreachable on this path. -/
theorem c3_equal_lists_clean_diff_yet_allocate_faults :
    compareLists [svcB] [svcB] = []
    ∧ slave.Allocate (NewSlave urlA tokenA) [svcB] (Except.ok [svcB])
        = Except.error () :=
  ⟨rfl, rfl⟩

/-- **C9** (counterexample).  `Close` on a slave that was never dialed
calls `Close()` through the nil connection and faults. -/
theorem c9_close_never_dialed_faults :
    slave.Close (NewSlave urlA tokenA) = Except.error () :=
  rfl

/-- **C9** (amended).  `Close` on a never-dialed slave dereferences the nil
connection and faults; a single `Close` after a successful `Dial` completes
without fault and returns the slave to its undialed state. -/
theorem c9_close_semantics (url token : String) :
    slave.Close (NewSlave url token) = Except.error ()
    ∧ slave.Close (slave.Dial (NewSlave url token) true).2
        = Except.ok (NewSlave url token) :=
  ⟨rfl, rfl⟩

/-- **C1** (code bug shown at the failing input).  `monState` tracks port
8388 whose recorded child (pid 100) has died.  After one monitor pass with
a successful relaunch: the table still maps 8388 to the same entry, that
entry still records the dead pid 100 — so `GetServer`'s snapshot reports a
dead process — while the relaunched child (pid 101, same configuration) is
attached only to the discarded clone at address 1.  The claimed dichotomy
(entry relaunched in place, or entry removed) excludes exactly this
observable state. -/
theorem c1_monitor_relaunches_into_discarded_clone :
    (Manager.monitorIter monState true).servers = [(8388, 0)]
    ∧ (heapGet (Manager.monitorIter monState true).heap 0).map Server.rtCmd
        = some (some 100)
    ∧ (Manager.monitorIter monState true).alivePids = [101]
    ∧ (getServerValue (Manager.monitorIter monState true) 8388).map
        (fun s => s.Alive (Manager.monitorIter monState true)) = some false
    ∧ (heapGet (Manager.monitorIter monState true).heap 1).map
        (fun s => (s.port, s.host, s.method, s.password, s.rtCmd))
        = some (8388, "127.0.0.1", "aes-256-cfb", "password12", some 101) :=
  ⟨rfl, rfl, rfl, rfl, rfl⟩

/-- **C5.**  `Add` checks table membership before anything else, so a
second `Add` on an occupied port — whatever the payload, valid or not —
returns `ErrServerExists` and leaves the whole manager state (the first
entry's configuration, stat, and the table) untouched. -/
theorem c5_add_existing_port_rejected (st : MState) (s : Server)
    (startOk : Bool) (h : (st.servers.lookup s.port).isSome = true) :
    Manager.Add st s startOk = (Except.error MErr.serverExists, st) := by
  simp [Manager.Add, h]

/-- **C5** (witness).  After `Add(validServer)` on an empty manager, port
8388 is present; a second `Add` with an invalid payload on the same port is
rejected with `ErrServerExists` and the state is unchanged. -/
theorem c5_add_existing_port_rejected_witness :
    (addState.servers.lookup 8388).isSome = true
    ∧ invalidServer.Valid = false
    ∧ invalidServer.port = 8388
    ∧ Manager.Add addState invalidServer true
        = (Except.error MErr.serverExists, addState) :=
  ⟨rfl, rfl, rfl, c5_add_existing_port_rejected addState invalidServer true rfl⟩

/-- Deleting a port's binding removes it from lookup entirely. -/
theorem lookup_eraseServerKey (l : List (Int × Nat)) (p : Int) :
    (eraseServerKey l p).lookup p = none := by
  induction l with
  | nil => rfl
  | cons e rest ih =>
    obtain ⟨q, a⟩ := e
    by_cases h : q = p
    · subst h
      simpa [eraseServerKey, List.filter] using ih
    · have hb : (q == p) = false := beq_false_of_ne h
      have hb2 : (p == q) = false := beq_false_of_ne (fun hpq => h hpq.symm)
      simp only [eraseServerKey, List.filter, hb, Bool.not_false] at ih ⊢
      simpa [List.lookup, hb2] using ih

/-- A string never survives the filter that drops it. -/
theorem not_mem_filter_self (l : List String) (x : String) :
    x ∉ l.filter (fun d => !(d == x)) := by
  intro hx
  have h := List.mem_filter.mp hx
  simp at h

/-- **C6.**  `Remove` on an absent port fails with `ErrServerNotFound`,
mutates nothing and performs no side effect; `Remove` on a present port
returns the state with the port's table binding gone and the port's
working directory gone, and its event trace deletes the table entry
strictly before the kill begins. -/
theorem c6_remove_semantics :
    (∀ st p, st.servers.lookup p = none →
        Manager.Remove st p
          = Except.ok (Except.error MErr.serverNotFound, st, []))
    ∧ (∀ st p a s pid,
        st.servers.lookup p = some a → heapGet st.heap a = some s →
        s.rtCmd = some pid →
        ∃ st1,
          Manager.Remove st p
              = Except.ok (Except.ok (), st1,
                  [Event.tableDelete p, Event.killProc pid, Event.waitProc pid,
                   Event.closeLog, Event.removeDir s.rtPath])
            ∧ st1.servers.lookup p = none
            ∧ s.rtPath ∉ st1.fsDirs) := by
  constructor
  · intro st p h
    simp [Manager.Remove, h]
  · intro st p a s pid h1 h2 h3
    refine ⟨{ st with
              servers := eraseServerKey st.servers p
              alivePids := st.alivePids.filter (fun q => !(q == pid))
              fsDirs := st.fsDirs.filter (fun d => !(d == s.rtPath)) }, ?_, ?_, ?_⟩
    · simp [Manager.Remove, h1, h2, h3, deleteResidue]
    · exact lookup_eraseServerKey st.servers p
    · exact not_mem_filter_self st.fsDirs s.rtPath

/-- **C6** (witness).  Concretely: removing absent port 9999 from an empty
manager fails with `ErrServerNotFound` and no side effects; removing
present port 8388 from `monState` yields a state without the port and
without its directory, with the delete event preceding the kill. -/
theorem c6_remove_semantics_witness :
    Manager.Remove (NewManager homeA 6001) 9999
        = Except.ok (Except.error MErr.serverNotFound, NewManager homeA 6001, [])
    ∧ ∃ st1,
        Manager.Remove monState 8388
            = Except.ok (Except.ok (), st1,
                [Event.tableDelete 8388, Event.killProc 100, Event.waitProc 100,
                 Event.closeLog, Event.removeDir monServer.rtPath])
          ∧ st1.servers.lookup 8388 = none
          ∧ monServer.rtPath ∉ st1.fsDirs :=
  ⟨c6_remove_semantics.1 (NewManager homeA 6001) 9999 rfl,
   c6_remove_semantics.2 monState 8388 0 monServer 100 rfl rfl rfl⟩

/-- Dereferencing below a freshly written address is unaffected by the
write. -/
theorem heapGet_cons_ne (h : List (Nat × Server)) (a b : Nat) (v : Server)
    (hne : b ≠ a) : heapGet ((a, v) :: h) b = heapGet h b := by
  simp [heapGet, List.lookup, beq_false_of_ne hne]

/-- Writing at an address no table entry records leaves every snapshot
value unchanged. -/
theorem tableView_heapSet_fresh (st : MState) (a : Nat) (v : Server)
    (hne : ∀ pa ∈ st.servers, pa.2 ≠ a) :
    tableView (heapSetState st a v) = tableView st := by
  unfold tableView heapSetState
  simp only []
  apply List.map_congr_left
  intro pa hpa
  rw [heapGet_cons_ne _ _ _ _ (hne pa hpa)]

/-- A successful `GetServer` hands out the allocation frontier as the clone
address and leaves the table untouched. -/
theorem getServer_ok_spec (st : MState) (p : Int) (a : Nat) (st1 : MState)
    (h : Manager.GetServer st p = Except.ok (a, st1)) :
    a = st.nextAddr ∧ st1.servers = st.servers := by
  cases hl : st.servers.lookup p with
  | none => simp [Manager.GetServer, hl] at h
  | some a0 =>
    cases hg : heapGet st.heap a0 with
    | none => simp [Manager.GetServer, hl, hg] at h
    | some s =>
      simp only [Manager.GetServer, hl, hg, alloc, Except.ok.injEq,
        Prod.mk.injEq] at h
      obtain ⟨h1, h2⟩ := h
      exact ⟨h1.symm, by rw [← h2]⟩

/-- `listClones` preserves the table and allocates every clone at or above
the incoming allocation frontier. -/
theorem listClones_spec (entries : List (Int × Nat)) (st : MState) :
    (listClones entries st).2.servers = st.servers
    ∧ st.nextAddr ≤ (listClones entries st).2.nextAddr
    ∧ ∀ pa ∈ (listClones entries st).1, st.nextAddr ≤ pa.2 := by
  induction entries generalizing st with
  | nil =>
    exact ⟨rfl, Nat.le_refl _, fun pa h => absurd h (List.not_mem_nil pa)⟩
  | cons e rest ih =>
    obtain ⟨p, a⟩ := e
    cases hg : heapGet st.heap a with
    | none => simpa [listClones, hg] using ih st
    | some s =>
      obtain ⟨ih1, ih2, ih3⟩ :=
        ih { st with heap := (st.nextAddr, s.clone) :: st.heap,
                     nextAddr := st.nextAddr + 1 }
      simp only at ih1 ih2 ih3
      refine ⟨?_, ?_, ?_⟩
      · simpa [listClones, hg, alloc] using ih1
      · have : st.nextAddr ≤ st.nextAddr + 1 := Nat.le_succ _
        simp only [listClones, hg, alloc]
        omega
      · intro pa hpa
        simp only [listClones, hg, alloc, List.mem_cons] at hpa
        rcases hpa with h | h
        · subst h; exact Nat.le_refl _
        · have := ih3 pa h
          simp only at this
          omega

/-- **C7.**  Snapshot isolation: for a well-formed manager state, the clone
addresses handed out by `GetServer` and by `ListServers` lie outside the
table, so overwriting any field of a returned clone (modelled as an
arbitrary overwrite of the clone's heap cell) never changes the snapshot
values any subsequent `ListServers`/`GetServer` produces. -/
theorem c7_snapshot_isolation (st : MState) (hwf : wfAddrs st = true) :
    (∀ p a st1, Manager.GetServer st p = Except.ok (a, st1) →
        ∀ v, tableView (heapSetState st1 a v) = tableView st1)
    ∧ (∀ res st1, Manager.ListServers st = (res, st1) →
        ∀ pa ∈ res, ∀ v, tableView (heapSetState st1 pa.2 v) = tableView st1) := by
  have hwf2 : ∀ pa ∈ st.servers, pa.2 < st.nextAddr := by
    intro pa hpa
    have h := List.all_eq_true.mp hwf pa hpa
    exact of_decide_eq_true h
  constructor
  · intro p a st1 hget v
    obtain ⟨ha, hs⟩ := getServer_ok_spec st p a st1 hget
    apply tableView_heapSet_fresh
    intro pa hpa
    rw [hs] at hpa
    have := hwf2 pa hpa
    omega
  · intro res st1 hls pa hpa v
    obtain ⟨h1, h2, h3⟩ := listClones_spec st.servers st
    have hres : res = (listClones st.servers st).1 := by
      rw [show listClones st.servers st = (res, st1) from hls]
    have hst1 : st1 = (listClones st.servers st).2 := by
      rw [show listClones st.servers st = (res, st1) from hls]
    apply tableView_heapSet_fresh
    intro qa hqa
    rw [hst1, h1] at hqa
    have hlt := hwf2 qa hqa
    have hge : st.nextAddr ≤ pa.2 := h3 pa (by rw [← hres]; exact hpa)
    omega

/-- **C7** (witness).  On the concrete one-entry state: `GetServer(8388)`
allocates the clone at the fresh address 1, and overwriting that clone's
configuration and stat leaves the table's snapshot values untouched. -/
theorem c7_snapshot_isolation_witness :
    wfAddrs monState = true
    ∧ Manager.GetServer monState 8388 = Except.ok (1, monGetState)
    ∧ tableView (heapSetState monGetState 1 mutatedClone) = tableView monGetState :=
  ⟨rfl, rfl,
   (c7_snapshot_isolation monState rfl).1 8388 1 monGetState rfl mutatedClone⟩

/-- Evaluating the handler's packet-side control flow on the concrete
well-formed packet for port 8388: everything up to the table lookup is
determined by the packet alone. -/
theorem statRecvHandler_packet8388 (st : MState) :
    statRecvHandler st statPacket8388
      = (match st.servers.lookup 8388 with
         | none => Except.ok st
         | some a =>
           match heapGet st.heap a with
           | none => Except.ok st
           | some s =>
             Except.ok (heapSetState st a { s with stat := some { traffic := 1024 } })) :=
  rfl

/-- **C8.**  Delivery of the well-formed packet `stat` + `8388 ↦ 1024` to a
supervisor whose table contains port 8388 stores the snapshot 1024 on that
entry, so the snapshot value `GetServer(8388)` produces has
`Stat.Traffic = 1024`; delivery of the same well-formed packet to a
supervisor without that port changes nothing at all. -/
theorem c8_stat_update (st : MState) (a : Nat) (s : Server)
    (h1 : st.servers.lookup 8388 = some a) (h2 : heapGet st.heap a = some s) :
    statRecvHandler st statPacket8388
        = Except.ok (heapSetState st a { s with stat := some { traffic := 1024 } })
    ∧ (getServerValue (heapSetState st a { s with stat := some { traffic := 1024 } }) 8388).map
        (fun c => c.GetStat.traffic) = some 1024
    ∧ ∀ st2 : MState, st2.servers.lookup 8388 = none →
        statRecvHandler st2 statPacket8388 = Except.ok st2 := by
  refine ⟨?_, ?_, ?_⟩
  · rw [statRecvHandler_packet8388]
    simp only [h1, h2]
  · simp only [getServerValue, heapSetState]
    simp only [h1]
    simp [heapGet, List.lookup, Server.clone, Server.GetStat]
  · intro st2 h
    rw [statRecvHandler_packet8388]
    simp only [h]

/-- **C8** (witness).  Concretely: on `monState` (which tracks port 8388)
the packet sets the entry's traffic snapshot to 1024 and the subsequent
snapshot reports 1024; on the empty manager the same packet is a no-op. -/
theorem c8_stat_update_witness :
    monState.servers.lookup 8388 = some 0
    ∧ statRecvHandler monState statPacket8388
        = Except.ok (heapSetState monState 0
            { monServer with stat := some { traffic := 1024 } })
    ∧ (getServerValue (heapSetState monState 0
          { monServer with stat := some { traffic := 1024 } }) 8388).map
        (fun c => c.GetStat.traffic) = some 1024
    ∧ statRecvHandler (NewManager homeA 6001) statPacket8388
        = Except.ok (NewManager homeA 6001) :=
  ⟨rfl,
   (c8_stat_update monState 0 monServer rfl rfl).1,
   (c8_stat_update monState 0 monServer rfl rfl).2.1,
   (c8_stat_update monState 0 monServer rfl rfl).2.2 (NewManager homeA 6001) rfl⟩

/-- **C4** (counterexample).  A well-formed two-key packet is NOT dropped:
on a supervisor tracking both named ports, the handler processes the first
key and updates that entry's stat (its snapshot traffic goes from 0 to
1024), contradicting the claim that packets whose JSON object has more than
one key are dropped without updating any entry. -/
theorem c4_multikey_packet_not_dropped :
    (parseStatJson (trimSpace (statPacketMulti.drop 5))).map List.length = some 2
    ∧ statRecvHandler stTwo statPacketMulti
        = Except.ok (heapSetState stTwo 0
            { monServer with stat := some { traffic := 1024 } })
    ∧ (getServerValue stTwo 8388).map (fun c => c.GetStat.traffic) = some 0
    ∧ (getServerValue (heapSetState stTwo 0
          { monServer with stat := some { traffic := 1024 } }) 8388).map
        (fun c => c.GetStat.traffic) = some 1024 :=
  ⟨rfl, rfl, rfl, rfl⟩

/-- **C4** (amended).  The handler's full case analysis: packets shorter
than the 4-byte tag, or exactly 4 bytes with the `stat` tag, fault on the
slicing; packets whose tag differs from `stat`, whose body fails JSON
parsing, whose first binding resolves to a negative port or negative
traffic, or whose first binding names an unknown port, are dropped with no
state change; otherwise — including multi-key packets — exactly the entry
of the first binding gets its stat snapshot replaced. -/
theorem c4_stat_recv_behavior :
    (∀ st (data : List Char), data.length < 4 →
        statRecvHandler st data = Except.error ())
    ∧ (∀ st (data : List Char), 4 ≤ data.length →
        String.mk (data.take 4) ≠ "stat" →
        statRecvHandler st data = Except.ok st)
    ∧ (∀ st (data : List Char), data.length = 4 →
        String.mk (data.take 4) = "stat" →
        statRecvHandler st data = Except.error ())
    ∧ (∀ st (data : List Char), 5 ≤ data.length →
        String.mk (data.take 4) = "stat" →
        parseStatJson (trimSpace (data.drop 5)) = none →
        statRecvHandler st data = Except.ok st)
    ∧ (∀ st (data : List Char) kvs, 5 ≤ data.length →
        String.mk (data.take 4) = "stat" →
        parseStatJson (trimSpace (data.drop 5)) = some kvs →
        ((firstStat kvs).1 < 0 ∨ (firstStat kvs).2 < 0) →
        statRecvHandler st data = Except.ok st)
    ∧ (∀ st (data : List Char) kvs, 5 ≤ data.length →
        String.mk (data.take 4) = "stat" →
        parseStatJson (trimSpace (data.drop 5)) = some kvs →
        ¬((firstStat kvs).1 < 0 ∨ (firstStat kvs).2 < 0) →
        st.servers.lookup (toInt32 (firstStat kvs).1) = none →
        statRecvHandler st data = Except.ok st)
    ∧ (∀ st (data : List Char) kvs a s, 5 ≤ data.length →
        String.mk (data.take 4) = "stat" →
        parseStatJson (trimSpace (data.drop 5)) = some kvs →
        ¬((firstStat kvs).1 < 0 ∨ (firstStat kvs).2 < 0) →
        st.servers.lookup (toInt32 (firstStat kvs).1) = some a →
        heapGet st.heap a = some s →
        statRecvHandler st data
          = Except.ok (heapSetState st a
              { s with stat := some { traffic := (firstStat kvs).2 } })) := by
  refine ⟨?_, ?_, ?_, ?_, ?_, ?_, ?_⟩
  · intro st data h
    simp [statRecvHandler, h]
  · intro st data h htag
    have hn4 : ¬ (data.length < 4) := by omega
    simp [statRecvHandler, hn4, htag]
  · intro st data h htag
    have hn4 : ¬ (data.length < 4) := by omega
    have hntag : ¬ (String.mk (data.take 4) ≠ "stat") := not_not_intro htag
    have h5 : data.length < 5 := by omega
    simp [statRecvHandler, hn4, hntag, h5]
  · intro st data h htag hparse
    have hn4 : ¬ (data.length < 4) := by omega
    have hntag : ¬ (String.mk (data.take 4) ≠ "stat") := not_not_intro htag
    have hn5 : ¬ (data.length < 5) := by omega
    simp [statRecvHandler, hn4, hntag, hn5, hparse]
  · intro st data kvs h htag hparse hneg
    have hn4 : ¬ (data.length < 4) := by omega
    have hntag : ¬ (String.mk (data.take 4) ≠ "stat") := not_not_intro htag
    have hn5 : ¬ (data.length < 5) := by omega
    simp only [statRecvHandler, if_neg hn4, if_neg hntag, if_neg hn5, hparse]
    rw [if_pos hneg]
  · intro st data kvs h htag hparse hneg hlook
    have hn4 : ¬ (data.length < 4) := by omega
    have hntag : ¬ (String.mk (data.take 4) ≠ "stat") := not_not_intro htag
    have hn5 : ¬ (data.length < 5) := by omega
    simp only [statRecvHandler, if_neg hn4, if_neg hntag, if_neg hn5, hparse]
    rw [if_neg hneg]
    simp only [hlook]
  · intro st data kvs a s h htag hparse hneg hlook hheap
    have hn4 : ¬ (data.length < 4) := by omega
    have hntag : ¬ (String.mk (data.take 4) ≠ "stat") := not_not_intro htag
    have hn5 : ¬ (data.length < 5) := by omega
    simp only [statRecvHandler, if_neg hn4, if_neg hntag, if_neg hn5, hparse]
    rw [if_neg hneg]
    simp only [hlook, hheap]

/-- **C4** (witness to the amended behavior).  Each regime exercised at a
concrete input: a foreign tag, an unparsable body, a 3-byte datagram, a
negative traffic value, the well-formed single-key packet for a port the
empty manager does not track, and the two-key packet updating the first
key's entry on `stTwo`. -/
theorem c4_stat_recv_behavior_witness :
    statRecvHandler stTwo bogusTagPacket = Except.ok stTwo
    ∧ statRecvHandler stTwo junkBodyPacket = Except.ok stTwo
    ∧ statRecvHandler stTwo shortPacket = Except.error ()
    ∧ statRecvHandler stTwo negValuePacket = Except.ok stTwo
    ∧ statRecvHandler (NewManager homeA 6001) statPacket8388
        = Except.ok (NewManager homeA 6001)
    ∧ statRecvHandler stTwo statPacketMulti
        = Except.ok (heapSetState stTwo 0
            { monServer with stat := some { traffic := 1024 } }) :=
  ⟨c4_stat_recv_behavior.2.1 stTwo bogusTagPacket (by decide) (by decide),
   c4_stat_recv_behavior.2.2.2.1 stTwo junkBodyPacket (by decide) (by decide) rfl,
   c4_stat_recv_behavior.1 stTwo shortPacket (by decide),
   c4_stat_recv_behavior.2.2.2.2.1 stTwo negValuePacket [(String.mk ['8', '3', '8', '8'], -7)]
     (by decide) (by decide) rfl (by decide),
   c4_stat_recv_behavior.2.2.2.2.2.1 (NewManager homeA 6001) statPacket8388
     [(String.mk ['8', '3', '8', '8'], 1024)] (by decide) (by decide) rfl (by decide) rfl,
   c4_stat_recv_behavior.2.2.2.2.2.2 stTwo statPacketMulti
     [(String.mk ['8', '3', '8', '8'], 1024), (String.mk ['8', '3', '8', '9'], 2048)]
     0 monServer (by decide) (by decide) rfl (by decide) rfl rfl⟩

end Ssmgr
